import Mathlib

/-!
Verification of the stackron-product pricing / cart core.

This file gives a shallow embedding, over exact rational arithmetic, of:
  * the arithmetic utilities (`src/common/utils/arithmetic.utils.ts`),
  * the `Product` entity with its computed discount/pricing getters
    (`src/products/entities/product.entity.ts`),
  * the cart aggregation (`src/cart/cart.service.ts` and the variant of
    `CartService` embedded in `src/cart/cart.controller.ts`),
  * the cart mutation `addToCart`,
  * the cached read path for `GET /products/:id` (the `CacheInterceptor`
    composed with `ProductsService.findOne`) and the invalidation performed
    by `ProductsService.update`,
  * the image-replacement block of `ProductsService.update` together with
    the `S3Service` call ordering.

JavaScript `number` values are embedded as rationals (`ℚ`); a
`number | string` operand becomes `Option ℚ`, with `none` standing for
`NaN` / an unparseable string and `some q` for a value that parses to `q`.
`Math.round` is embedded by its ECMAScript definition on finite inputs,
`⌊x + 1/2⌋` (nearest integer, ties toward +∞), and `Number.EPSILON` by the
exact rational `2⁻⁵²`.
-/

namespace Stackron

/-- A JavaScript `number | string` operand as consumed by the arithmetic
utilities: `some q` is a finite number (or a numeric string parsing to `q`),
`none` is `NaN` or an unparseable string.  The `parseFloat` / `isNaN`
guards of the source correspond to matching on the option. -/
abbrev JSValue := Option ℚ

/-- The constant `Number.EPSILON` (2⁻⁵²), which `toPreciseDecimal` adds before scaling. -/
def jsEpsilon : ℚ := 1 / 2 ^ 52

/-- ECMAScript `Math.round` on finite inputs: the nearest integer, with
ties rounded toward +∞, i.e. `⌊x + 1/2⌋` (stated executably via
`Rat.floor`; `jsRound_eq_floor` below gives the `⌊·⌋` form). -/
def jsRound (x : ℚ) : ℤ := (x + 1 / 2).floor

/-- Semantics of `Number(x.toFixed(2))`: the nearest 2-decimal value, ties toward the
larger candidate (ECMAScript `toFixed` picks the larger `n` on ties), as
used by the `Product` getters and `cart.service.ts`. -/
def toFixed2 (x : ℚ) : ℚ := (jsRound (x * 100) : ℚ) / 100

/-- The function `toPreciseDecimal` from `arithmetic.utils.ts`: parse the operand,
map `NaN` to `0`, then `Math.round((num + Number.EPSILON) * 10^d) / 10^d`. -/
def toPreciseDecimal (value : JSValue) (decimals : ℕ) : ℚ :=
  match value with
  | none => 0
  | some num => (jsRound ((num + jsEpsilon) * 10 ^ decimals) : ℚ) / 10 ^ decimals

/-- The function `safeAdd`: fold `acc + (isNaN(num) ? 0 : num)` over the operands
starting from `0`, then round once via `toPreciseDecimal`. -/
def safeAdd (values : List JSValue) : ℚ :=
  toPreciseDecimal (some (values.foldl (fun acc val => acc + val.getD 0) 0)) 2

/-- The function `safeSubtract`: returns `0` when either operand is `NaN`, otherwise the
rounded difference. -/
def safeSubtract (minuend subtrahend : JSValue) : ℚ :=
  match minuend, subtrahend with
  | some num1, some num2 => toPreciseDecimal (some (num1 - num2)) 2
  | _, _ => 0

/-- The function `safeMultiply`: returns `0` when either operand is `NaN`, otherwise the
rounded product. -/
def safeMultiply (multiplicand multiplier : JSValue) : ℚ :=
  match multiplicand, multiplier with
  | some num1, some num2 => toPreciseDecimal (some (num1 * num2)) 2
  | _, _ => 0

/-- The function `safeDivide`: returns `0` when either operand is `NaN` or the divisor is `0`,
otherwise the rounded quotient. -/
def safeDivide (dividend divisor : JSValue) : ℚ :=
  match dividend, divisor with
  | some num1, some num2 =>
      if num2 = 0 then 0 else toPreciseDecimal (some (num1 / num2)) 2
  | _, _ => 0

/-- The function `calculatePercentage`: returns `0` when either operand is `NaN`, otherwise
`toPreciseDecimal(value * percentage / 100)`. -/
def calculatePercentage (value percentage : JSValue) : ℚ :=
  match value, percentage with
  | some baseValue, some percent => toPreciseDecimal (some (baseValue * percent / 100)) 2
  | _, _ => 0

/-- The function `calculateLineTotal(quantity, unitPrice) = safeMultiply(quantity, unitPrice)`. -/
def calculateLineTotal (quantity : ℚ) (unitPrice : JSValue) : ℚ :=
  safeMultiply (some quantity) unitPrice

/-- The function `sumArray(values) = safeAdd(...values)`. -/
def sumArray (values : List JSValue) : ℚ :=
  safeAdd values

/-- The predicate `isValidMonetaryAmount`: parses to a finite, non-negative number
(rationals are always finite, `NaN` is `none`). -/
def isValidMonetaryAmount (value : JSValue) : Bool :=
  match value with
  | none => false
  | some num => decide (0 ≤ num)

/-- The `Product` entity (`product.entity.ts`).  The `decimal` columns
`price` and `discount_percentage` are rationals, timestamps are epoch
milliseconds (`ℤ`); nullable columns are options.  The TypeORM
`Number(...)` coercions of the decimal-column strings are identities in
this embedding. -/
structure Product where
  id : String
  name : String
  description : String
  price : ℚ
  stock_quantity : ℤ
  image_url : Option String := none
  discount_percentage : Option ℚ := none
  discount_start_date : Option ℤ := none
  discount_end_date : Option ℤ := none
deriving Repr, DecidableEq

/-- The `isDiscountActive` getter.  `!this.discount_percentage` is truthy
for a missing percentage and for `0` (JS falsiness), the explicit
comparison covers `≤ 0`; a present `Date` object is always truthy, so the
date guards only distinguish present/absent.  `now` is the evaluation
instant (`new Date()` in the source). -/
def Product.isDiscountActive (p : Product) (now : ℤ) : Bool :=
  match p.discount_percentage with
  | none => false
  | some pct =>
    if pct ≤ 0 then false
    else
      let startValid :=
        match p.discount_start_date with
        | none => true
        | some s => decide (s ≤ now)
      let endValid :=
        match p.discount_end_date with
        | none => true
        | some e => decide (now ≤ e)
      startValid && endValid

/-- The `effectivePrice` getter: when active, subtract the raw
`price * percentage / 100` and round the difference via `toFixed(2)`;
otherwise the raw price. -/
def Product.effectivePrice (p : Product) (now : ℤ) : ℚ :=
  if p.isDiscountActive now then
    let discountAmount := p.price * p.discount_percentage.getD 0 / 100
    toFixed2 (p.price - discountAmount)
  else p.price

/-- The `discountAmount` getter: when active,
`Number((price - effectivePrice).toFixed(2))`; otherwise `0`. -/
def Product.discountAmount (p : Product) (now : ℤ) : ℚ :=
  if p.isDiscountActive now then toFixed2 (p.price - p.effectivePrice now)
  else 0

/-- A value representable in whole cents, i.e. with at most 2 decimal
places — the invariant of the `decimal(10,2)` price column and of every
`toFixed(2)` / `toPreciseDecimal` result. -/
def IsCent (x : ℚ) : Prop := ∃ n : ℤ, x = (n : ℚ) / 100

/-- Rounding to 2 decimals by integer scaling with round-half-away-from-zero,
as the specification words it ("multiply by 10^2, round, divide",
"round-half-away-from-zero at the smallest representable unit").  This is
the spec-side definition, to be compared with the source's
`toPreciseDecimal`. -/
def specRoundHalfAway2 (x : ℚ) : ℚ :=
  ((if 0 ≤ x * 100 then ⌊x * 100 + 1 / 2⌋ else ⌈x * 100 - 1 / 2⌉ : ℤ) : ℚ) / 100

/-- The error taxonomy surfaced by the services: `NotFoundException` and
`BadRequestException` (the InvalidInput class). -/
inductive ApiError
  | notFound (msg : String)
  | badRequest (msg : String)
deriving Repr, DecidableEq

/-- The `CartItem` entity (`cart-item.entity.ts`) with its eagerly joined
`product` relation. -/
structure CartItem where
  id : String
  product_id : String
  quantity : ℤ
  created_at : ℤ
  product : Product
deriving Repr, DecidableEq

/-- The nested `product` object of `CartItemWithPricingDto`
(`cart-response.dto.ts`). -/
structure CartProductView where
  id : String
  name : String
  description : String
  originalPrice : ℚ
  effectivePrice : ℚ
  discountAmount : ℚ
  isDiscountActive : Bool
  image_url : Option String
  stock_quantity : ℤ
deriving Repr, DecidableEq

/-- The DTO `CartItemWithPricingDto`: a cart line with its displayed pricing. -/
structure CartItemWithPricing where
  id : String
  product_id : String
  quantity : ℤ
  created_at : ℤ
  product : CartProductView
  lineTotal : ℚ
  lineSavings : ℚ
deriving Repr, DecidableEq

/-- The DTO `CartResponseDto`: the aggregate cart view. -/
structure CartResponse where
  items : List CartItemWithPricing
  totalItems : ℤ
  totalPrice : ℚ
  totalOriginalPrice : ℚ
  totalSavings : ℚ
  uniqueProducts : ℕ
deriving Repr, DecidableEq

/-- One line of `CartService.getCart` from `cart.service.ts`: plain JS
multiplication/subtraction with a final `Number(x.toFixed(2))` on the two
displayed line figures. -/
def cartLineService (now : ℤ) (item : CartItem) : CartItemWithPricing :=
  let lineTotal : ℚ := (item.quantity : ℚ) * item.product.effectivePrice now
  let originalLineTotal : ℚ := (item.quantity : ℚ) * item.product.price
  let lineSavings : ℚ := originalLineTotal - lineTotal
  { id := item.id
    product_id := item.product_id
    quantity := item.quantity
    created_at := item.created_at
    product :=
      { id := item.product.id
        name := item.product.name
        description := item.product.description
        originalPrice := item.product.price
        effectivePrice := item.product.effectivePrice now
        discountAmount := item.product.discountAmount now
        isDiscountActive := item.product.isDiscountActive now
        image_url := item.product.image_url
        stock_quantity := item.product.stock_quantity }
    lineTotal := toFixed2 lineTotal
    lineSavings := toFixed2 lineSavings }

/-- The method `CartService.getCart` from `cart.service.ts` applied to the (already
ordered) list of cart rows: totals are plain `reduce` sums with a final
`toFixed(2)`; `totalSavings` is the difference of the unrounded
accumulators; `totalOriginalPrice` re-derives each original line total as
`quantity * product.originalPrice`. -/
def getCartService (cartItems : List CartItem) (now : ℤ) : CartResponse :=
  let itemsWithPricing := cartItems.map (cartLineService now)
  let totalItems := cartItems.foldl (fun sum item => sum + item.quantity) 0
  let totalPrice := itemsWithPricing.foldl (fun sum item => sum + item.lineTotal) 0
  let totalOriginalPrice :=
    itemsWithPricing.foldl
      (fun sum item => sum + (item.quantity : ℚ) * item.product.originalPrice) 0
  let totalSavings := totalOriginalPrice - totalPrice
  { items := itemsWithPricing
    totalItems := totalItems
    totalPrice := toFixed2 totalPrice
    totalOriginalPrice := toFixed2 totalOriginalPrice
    totalSavings := toFixed2 totalSavings
    uniqueProducts := cartItems.length }

/-- One line of the `CartService.getCart` variant embedded in
`cart.controller.ts`: the arithmetic utilities replace the plain JS
arithmetic (`toPreciseDecimal`, `calculateLineTotal`, `safeSubtract`). -/
def cartLineUtils (now : ℤ) (item : CartItem) : CartItemWithPricing :=
  let originalPrice := toPreciseDecimal (some item.product.price) 2
  let eff := item.product.effectivePrice now
  let lineTotal := calculateLineTotal (item.quantity : ℚ) (some eff)
  let originalLineTotal := calculateLineTotal (item.quantity : ℚ) (some originalPrice)
  let lineSavings := safeSubtract (some originalLineTotal) (some lineTotal)
  { id := item.id
    product_id := item.product_id
    quantity := item.quantity
    created_at := item.created_at
    product :=
      { id := item.product.id
        name := item.product.name
        description := item.product.description
        originalPrice := originalPrice
        effectivePrice := eff
        discountAmount := item.product.discountAmount now
        isDiscountActive := item.product.isDiscountActive now
        image_url := item.product.image_url
        stock_quantity := item.product.stock_quantity }
    lineTotal := lineTotal
    lineSavings := lineSavings }

/-- The `CartService.getCart` variant embedded in `cart.controller.ts`:
totals via `sumArray` / `safeSubtract` over the displayed line values. -/
def getCartUtils (cartItems : List CartItem) (now : ℤ) : CartResponse :=
  let itemsWithPricing := cartItems.map (cartLineUtils now)
  let totalItems := cartItems.foldl (fun sum item => sum + item.quantity) 0
  let totalPrice := sumArray (itemsWithPricing.map (fun item => some item.lineTotal))
  let totalOriginalPrice :=
    sumArray (itemsWithPricing.map
      (fun item => some (calculateLineTotal (item.quantity : ℚ) (some item.product.originalPrice))))
  let totalSavings := safeSubtract (some totalOriginalPrice) (some totalPrice)
  { items := itemsWithPricing
    totalItems := totalItems
    totalPrice := totalPrice
    totalOriginalPrice := totalOriginalPrice
    totalSavings := totalSavings
    uniqueProducts := cartItems.length }

/-- The DTO `AddToCartDto`. -/
structure AddToCartDto where
  product_id : String
  quantity : ℤ
deriving Repr, DecidableEq

/-- The store state the cart service operates on: the product table and
the cart line table. -/
structure CartState where
  products : List Product
  items : List CartItem
deriving Repr, DecidableEq

/-- The method `ProductsService.findOneEntity`: resolve a product by id (`none`
models the thrown `NotFoundException`). -/
def findOneEntity (products : List Product) (id : String) : Option Product :=
  products.find? (fun p => p.id == id)

/-- The method `CartService.addToCart` from `cart.service.ts`.  The pair is
(resulting store state, outcome); on a thrown exception the state is the
unchanged input, mirroring that the source throws before any repository
write.  `newId`/`now` model the DB-assigned primary key and `created_at`
of a freshly created row. -/
def addToCart (state : CartState) (dto : AddToCartDto) (newId : String) (now : ℤ) :
    CartState × Except ApiError CartItem :=
  match findOneEntity state.products dto.product_id with
  | none =>
      (state, .error (.notFound ("Product with ID " ++ dto.product_id ++ " not found")))
  | some product =>
      if product.stock_quantity < dto.quantity then
        (state, .error (.badRequest ("Insufficient stock. Available: " ++
          toString product.stock_quantity ++ ", Requested: " ++ toString dto.quantity)))
      else
        match state.items.find? (fun it => it.product_id == dto.product_id) with
        | some existingCartItem =>
            let newQuantity := existingCartItem.quantity + dto.quantity
            if product.stock_quantity < newQuantity then
              (state, .error (.badRequest ("Insufficient stock. Available: " ++
                toString product.stock_quantity ++ ", Total requested: " ++
                toString newQuantity)))
            else
              let savedItem := { existingCartItem with quantity := newQuantity }
              let items' := state.items.map
                (fun it => if it.id == existingCartItem.id then savedItem else it)
              ({ state with items := items' }, .ok savedItem)
        | none =>
            let cartItem : CartItem :=
              { id := newId, product_id := dto.product_id, quantity := dto.quantity,
                created_at := now, product := product }
            ({ state with items := state.items ++ [cartItem] }, .ok cartItem)

/-- The shape built by `ProductWithPricingDto.fromProduct`: the read-facing priced projection
of a product. -/
structure ProductView where
  id : String
  name : String
  description : String
  originalPrice : ℚ
  effectivePrice : ℚ
  discountAmount : ℚ
  stock_quantity : ℤ
  image_url : Option String
  discount_percentage : Option ℚ
  isDiscountActive : Bool
  discount_start_date : Option ℤ
  discount_end_date : Option ℤ
deriving Repr, DecidableEq

/-- The projection `ProductWithPricingDto.fromProduct` (`product-with-pricing.dto.ts`).
`discount_percentage ? Number(...) : undefined` maps a falsy (absent or 0)
percentage to `undefined`. -/
def ProductView.fromProduct (p : Product) (now : ℤ) : ProductView :=
  { id := p.id
    name := p.name
    description := p.description
    originalPrice := p.price
    effectivePrice := p.effectivePrice now
    discountAmount := p.discountAmount now
    stock_quantity := p.stock_quantity
    image_url := p.image_url
    discount_percentage :=
      match p.discount_percentage with
      | some pct => if pct = 0 then none else some pct
      | none => none
    isDiscountActive := p.isDiscountActive now
    discount_start_date := p.discount_start_date
    discount_end_date := p.discount_end_date }

/-- A cache snapshot: Redis keys bound to serialized single-product
projections.  (List-view entries are modeled only through their keys: the
claims under study never read them, only invalidate them, and an entry of
a different shape under a `products_list:*` key would be deleted exactly
like one holding a product view.) -/
abbrev Cache := List (String × ProductView)

/-- The operation `redisService.getJson`: first binding of the key, if any. -/
def redisGet (cache : Cache) (key : String) : Option ProductView :=
  (cache.find? (fun kv => kv.1 == key)).map (fun kv => kv.2)

/-- The operation `redisService.setJson`: bind `key`, replacing any previous binding. -/
def redisSet (cache : Cache) (key : String) (v : ProductView) : Cache :=
  (key, v) :: cache.filter (fun kv => !(kv.1 == key))

/-- The operation `redisService.del`: drop the binding of `key`. -/
def redisDel (cache : Cache) (key : String) : Cache :=
  cache.filter (fun kv => !(kv.1 == key))

/-- The operation `redisService.flushPattern` for the glob patterns used by the service,
which all have the shape `<prefix>*`: drop every key starting with the
part before the `*`. -/
def redisFlushPattern (cache : Cache) (pattern : String) : Cache :=
  cache.filter (fun kv => !(List.isPrefixOf (pattern.dropRight 1).data kv.1.data))

/-- The service-level cache key of `ProductsService.findOne` / `update` /
`remove` / `applyDiscount` / `removeDiscount`:
`` `${PRODUCT_CACHE_PREFIX}:${id}` ``. -/
def productCacheKey (id : String) : String := "product:" ++ id

/-- The key under which the globally registered `CacheInterceptor` caches
`GET /products/:id` (`@Cache({ ttl: 600, keyPrefix: 'product' })` on
`ProductsController.findOne`): `` `${prefix}:${method}:${url}` `` followed
by `:` + `JSON.stringify(params)` (the query string is empty for this
route, so no query segment is appended). -/
def findOneRouteCacheKey (id : String) : String :=
  "product:GET:/products/" ++ id ++ ":\x7b\"id\":\"" ++ id ++ "\"\x7d"

/-- State touched by the cached product read/update paths. -/
structure SysState where
  store : List Product
  cache : Cache
deriving Repr, DecidableEq

/-- The method `ProductsService.findOne`: service-level cache-aside on
`productCacheKey`; returns the (possibly cached) projection and the cache
after the read. `none` models the thrown `NotFoundException`. -/
def serviceFindOne (s : SysState) (id : String) (now : ℤ) :
    Option ProductView × Cache :=
  match redisGet s.cache (productCacheKey id) with
  | some cached => (some cached, s.cache)
  | none =>
      match s.store.find? (fun p => p.id == id) with
      | none => (none, s.cache)
      | some product =>
          let view := ProductView.fromProduct product now
          (some view, redisSet s.cache (productCacheKey id) view)

/-- The route `GET /products/:id` as served end to end: the `CacheInterceptor`
(registered as a global `APP_INTERCEPTOR`) consults
`findOneRouteCacheKey` first; on a miss it runs
`ProductsController.findOne` → `ProductsService.findOne` and then caches
the emitted response under the interceptor key (`tap` + `setJson`). -/
def getProductRoute (s : SysState) (id : String) (now : ℤ) :
    Option ProductView × SysState :=
  let key := findOneRouteCacheKey id
  match redisGet s.cache key with
  | some cached => (some cached, s)
  | none =>
      match serviceFindOne s id now with
      | (some view, cache') => (some view, { s with cache := redisSet cache' key view })
      | (none, cache') => (none, { s with cache := cache' })

/-- The DTO `UpdateProductDto` (all fields optional). -/
structure UpdateProductDto where
  name : Option String := none
  description : Option String := none
  price : Option ℚ := none
  stock_quantity : Option ℤ := none
  discount_percentage : Option ℚ := none
  discount_start_date : Option ℤ := none
  discount_end_date : Option ℤ := none
deriving Repr, DecidableEq

/-- The `Object.assign(product, updateData)` step of
`ProductsService.update` (no-image request): spread fields overwrite only
when present; the two date keys are written unconditionally by the
`updateData` literal (an absent date stays absent / is cleared). -/
def applyUpdate (p : Product) (dto : UpdateProductDto) : Product :=
  { p with
    name := dto.name.getD p.name
    description := dto.description.getD p.description
    price := dto.price.getD p.price
    stock_quantity := dto.stock_quantity.getD p.stock_quantity
    discount_percentage := dto.discount_percentage <|> p.discount_percentage
    discount_start_date := dto.discount_start_date
    discount_end_date := dto.discount_end_date }

/-- The method `ProductsService.update` for a request without an image file:
validation, entity fetch, save, then cache invalidation (`del` of the
service-level key, `flushPattern('products_list:*')`) before the response
is returned.  On a thrown exception the state is unchanged. -/
def updateProduct (s : SysState) (id : String) (dto : UpdateProductDto) :
    SysState × Except ApiError Product :=
  if dto.price.any (fun pr => !isValidMonetaryAmount (some pr)) then
    (s, .error (.badRequest "Price must be a valid positive number"))
  else if dto.discount_percentage.any
      (fun d => !isValidMonetaryAmount (some d) || decide (100 < d)) then
    (s, .error (.badRequest "Discount percentage must be between 0 and 100"))
  else
    match s.store.find? (fun p => p.id == id) with
    | none => (s, .error (.notFound ("Product with ID " ++ id ++ " not found")))
    | some product =>
        let saved := applyUpdate product dto
        let store' := s.store.map (fun p => if p.id == id then saved else p)
        let cache' := redisFlushPattern (redisDel s.cache (productCacheKey id))
          "products_list:*"
        ({ store := store', cache := cache' }, .ok saved)

/-- Blob Store calls observable during an update, in issue order. -/
inductive S3Event
  | deleteFile (fileUrl : String)
  | uploadFile
deriving Repr, DecidableEq

/-- The image-replacement block of `ProductsService.update` plus the final
`image_url` written by the save.  `hasImageFile` is the presence of the
multipart file; `uploadOutcome` models the Blob Store: `.ok url` is a
successful `S3Service.uploadFile` returning the public URL, `.error msg` an
upload failure (surfaced as `BadRequestException('Failed to upload
file: …')`).  `S3Service.deleteFile` swallows its own errors (`try/catch`
with a log), so a delete is a single unconditional event.  The first pair
component is the ordered trace of Blob Store calls, the second the
resulting `image_url` of the saved product (untouched when no file is
supplied, since `...(imageUrl && { image_url: imageUrl })` spreads
nothing). -/
def updateProductImage (product : Product) (hasImageFile : Bool)
    (uploadOutcome : Except String String) :
    List S3Event × Except ApiError (Option String) :=
  if hasImageFile then
    let deleteEvents :=
      match product.image_url with
      | some oldUrl => [S3Event.deleteFile oldUrl]
      | none => []
    match uploadOutcome with
    | .error msg =>
        (deleteEvents ++ [S3Event.uploadFile],
         .error (.badRequest ("Failed to upload file: " ++ msg)))
    | .ok url =>
        (deleteEvents ++ [S3Event.uploadFile], .ok (some url))
  else ([], .ok product.image_url)


/-! ## Concrete fixtures used by witnesses and counterexamples -/

/-- A product whose raw discount amount `0.07 * 50% = 0.035` sits exactly
on a half-cent rounding tie. -/
def tieProduct : Product :=
  { id := "c2", name := "T", description := "", price := 7 / 100, stock_quantity := 1,
    discount_percentage := some 50 }

/-- The spec scenario product: `price = 100.00`, `discount = 20`,
`start = 2020-01-01`, `end = 2030-12-31` (epoch milliseconds). -/
def scenarioProduct : Product :=
  { id := "w3", name := "Scenario", description := "", price := 100, stock_quantity := 5,
    discount_percentage := some 20, discount_start_date := some 1577836800000,
    discount_end_date := some 1924905600000 }

/-- Spec cart scenario, product A: price 100, 25% discount active. -/
def prodA : Product :=
  { id := "pa", name := "A", description := "", price := 100, stock_quantity := 10,
    discount_percentage := some 25 }

/-- Spec cart scenario, product B: price 50, no discount. -/
def prodB : Product :=
  { id := "pb", name := "B", description := "", price := 50, stock_quantity := 10 }

/-- The spec scenario cart: two of product A, one of product B. -/
def scenarioCart : List CartItem :=
  [ { id := "la", product_id := "pa", quantity := 2, created_at := 0, product := prodA },
    { id := "lb", product_id := "pb", quantity := 1, created_at := 0, product := prodB } ]

/-- A no-discount product with stock 10, as in the stock scenarios. -/
def stockProduct : Product :=
  { id := "sp", name := "S", description := "", price := 10, stock_quantity := 10 }

/-- A cart already holding 4 of `stockProduct`. -/
def stockCartState : CartState :=
  { products := [stockProduct],
    items := [{ id := "l1", product_id := "sp", quantity := 4, created_at := 0,
                product := stockProduct }] }

/-- An empty cart over the stock-10 product. -/
def emptyCartState : CartState :=
  { products := [stockProduct], items := [] }

/-- A plain product for the cache scenarios. -/
def cachedProduct : Product :=
  { id := "p1", name := "C", description := "", price := 100, stock_quantity := 5 }

/-- A product carrying an image locator, for the image-replacement
scenarios. -/
def imageProduct : Product :=
  { id := "pi", name := "I", description := "", price := 10, stock_quantity := 1,
    image_url := some "https://bucket.s3.us-east-1.amazonaws.com/products/old.jpg" }

/-! ## Basic facts about the embedded rounding operations -/

theorem ratFloor_eq_floor (q : ℚ) : q.floor = ⌊q⌋ :=
  le_antisymm (Int.le_floor.mpr (Rat.le_floor.mp le_rfl)) (Rat.le_floor.mpr (Int.floor_le q))

theorem jsRound_eq_floor (x : ℚ) : jsRound x = ⌊x + 1 / 2⌋ :=
  ratFloor_eq_floor _

theorem toFixed2_as_floor (x : ℚ) : toFixed2 x = ((⌊x * 100 + 1 / 2⌋ : ℤ) : ℚ) / 100 := by
  rw [toFixed2, jsRound_eq_floor]

theorem toPreciseDecimal_some (x : ℚ) :
    toPreciseDecimal (some x) 2 = ((⌊x * 100 + jsEpsilon * 100 + 1 / 2⌋ : ℤ) : ℚ) / 100 := by
  rw [toPreciseDecimal, jsRound_eq_floor]
  norm_num
  ring_nf

theorem toFixed2_eval (x : ℚ) (n : ℤ) (h₁ : (n : ℚ) ≤ x * 100 + 1 / 2)
    (h₂ : x * 100 + 1 / 2 < (n : ℚ) + 1) : toFixed2 x = (n : ℚ) / 100 := by
  rw [toFixed2_as_floor, Int.floor_eq_iff.mpr ⟨h₁, h₂⟩]

theorem toPrecise_eval (x : ℚ) (n : ℤ) (h₁ : (n : ℚ) ≤ x * 100 + jsEpsilon * 100 + 1 / 2)
    (h₂ : x * 100 + jsEpsilon * 100 + 1 / 2 < (n : ℚ) + 1) :
    toPreciseDecimal (some x) 2 = (n : ℚ) / 100 := by
  rw [toPreciseDecimal_some, Int.floor_eq_iff.mpr ⟨h₁, h₂⟩]

theorem toFixed2_cent (n : ℤ) : toFixed2 ((n : ℚ) / 100) = (n : ℚ) / 100 := by
  apply toFixed2_eval _ n <;> [skip; skip] <;>
    · have : ((n : ℚ) / 100) * 100 = (n : ℚ) := by ring
      rw [this]
      norm_num

theorem toPrecise_cent (n : ℤ) : toPreciseDecimal (some ((n : ℚ) / 100)) 2 = (n : ℚ) / 100 := by
  apply toPrecise_eval _ n <;>
    · have : ((n : ℚ) / 100) * 100 = (n : ℚ) := by ring
      rw [this, jsEpsilon]
      norm_num
      linarith

theorem IsCent.toFixed2_eq {x : ℚ} (h : IsCent x) : toFixed2 x = x := by
  obtain ⟨n, rfl⟩ := h
  exact toFixed2_cent n

theorem IsCent.toPrecise_eq {x : ℚ} (h : IsCent x) : toPreciseDecimal (some x) 2 = x := by
  obtain ⟨n, rfl⟩ := h
  exact toPrecise_cent n

theorem isCent_toFixed2 (x : ℚ) : IsCent (toFixed2 x) :=
  ⟨jsRound (x * 100), rfl⟩

theorem isCent_toPrecise (v : JSValue) : IsCent (toPreciseDecimal v 2) := by
  match v with
  | none => exact ⟨0, by simp [toPreciseDecimal]⟩
  | some x => exact ⟨jsRound ((x + jsEpsilon) * 10 ^ 2), by simp [toPreciseDecimal]; norm_num⟩

theorem IsCent.add {x y : ℚ} (hx : IsCent x) (hy : IsCent y) : IsCent (x + y) := by
  obtain ⟨n, rfl⟩ := hx
  obtain ⟨m, rfl⟩ := hy
  exact ⟨n + m, by push_cast; ring⟩

theorem IsCent.sub {x y : ℚ} (hx : IsCent x) (hy : IsCent y) : IsCent (x - y) := by
  obtain ⟨n, rfl⟩ := hx
  obtain ⟨m, rfl⟩ := hy
  exact ⟨n - m, by push_cast; ring⟩

theorem IsCent.int_mul {x : ℚ} (k : ℤ) (hx : IsCent x) : IsCent ((k : ℚ) * x) := by
  obtain ⟨n, rfl⟩ := hx
  exact ⟨k * n, by push_cast; ring⟩

theorem isCent_zero : IsCent 0 := ⟨0, by norm_num⟩

/-! ## Discount policy -/

theorem discountActive_iff (p : Product) (now : ℤ) :
    p.isDiscountActive now = true ↔
      ∃ pct, p.discount_percentage = some pct ∧ 0 < pct ∧
        (∀ s, p.discount_start_date = some s → s ≤ now) ∧
        (∀ e, p.discount_end_date = some e → now ≤ e) := by
  unfold Product.isDiscountActive
  rcases hp : p.discount_percentage with _ | pct
  · simp
  · rcases hs : p.discount_start_date with _ | s <;>
      rcases he : p.discount_end_date with _ | e <;>
      by_cases hpct : pct ≤ 0 <;>
      push_neg at hpct <;>
      simp [hs, he, hpct, not_lt]

/-- C1: `isDiscountActive` is false when `discount_percentage` is absent
or ≤ 0, and otherwise true iff (start absent or start ≤ now) and (end
absent or end ≥ now); both window boundaries are inclusive. -/
theorem discount_active_characterization (p : Product) (now : ℤ) :
    p.isDiscountActive now = true ↔
      ∃ pct, p.discount_percentage = some pct ∧ 0 < pct ∧
        (∀ s, p.discount_start_date = some s → s ≤ now) ∧
        (∀ e, p.discount_end_date = some e → now ≤ e) :=
  discountActive_iff p now

theorem effectivePrice_of_active {p : Product} {now : ℤ}
    (h : p.isDiscountActive now = true) :
    p.effectivePrice now = toFixed2 (p.price - p.price * p.discount_percentage.getD 0 / 100) := by
  rw [Product.effectivePrice, if_pos h]

theorem discountAmount_of_active {p : Product} {now : ℤ}
    (h : p.isDiscountActive now = true) :
    p.discountAmount now = toFixed2 (p.price - p.effectivePrice now) := by
  rw [Product.discountAmount, if_pos h]

theorem effectivePrice_of_inactive {p : Product} {now : ℤ}
    (h : p.isDiscountActive now = false) :
    p.effectivePrice now = p.price := by
  rw [Product.effectivePrice, if_neg (by simp [h])]

theorem discountAmount_of_inactive {p : Product} {now : ℤ}
    (h : p.isDiscountActive now = false) :
    p.discountAmount now = 0 := by
  rw [Product.discountAmount, if_neg (by simp [h])]

theorem isCent_effectivePrice {p : Product} (hp : IsCent p.price) (now : ℤ) :
    IsCent (p.effectivePrice now) := by
  rw [Product.effectivePrice]
  split
  · exact isCent_toFixed2 _
  · exact hp

theorem discountAmount_exact {p : Product} {now : ℤ}
    (h : p.isDiscountActive now = true) (hcent : IsCent p.price) :
    p.discountAmount now = p.price - p.effectivePrice now := by
  rw [discountAmount_of_active h]
  exact (hcent.sub (isCent_effectivePrice hcent now)).toFixed2_eq

/-- C2 (amended): when the discount is active, `effectivePrice` is the
2-decimal rounding of `price - price * percentage / 100` (rounding applied
once, to the difference) and `discountAmount` is the 2-decimal rounding of
`price - effectivePrice` — for a 2-decimal price this is exactly
`price - effectivePrice`, not an independently rounded
`price * percentage / 100`; when inactive, `discountAmount` is 0 and
`effectivePrice` is the raw price. -/
theorem discount_projection_formulas (p : Product) (now : ℤ) :
    (p.isDiscountActive now = true →
      p.effectivePrice now = toFixed2 (p.price - p.price * p.discount_percentage.getD 0 / 100) ∧
      p.discountAmount now = toFixed2 (p.price - p.effectivePrice now) ∧
      (IsCent p.price → p.discountAmount now = p.price - p.effectivePrice now)) ∧
    (p.isDiscountActive now = false →
      p.discountAmount now = 0 ∧ p.effectivePrice now = p.price) := by
  constructor
  · intro h
    exact ⟨effectivePrice_of_active h, discountAmount_of_active h,
      fun hc => discountAmount_exact h hc⟩
  · intro h
    exact ⟨discountAmount_of_inactive h, effectivePrice_of_inactive h⟩

/-- Witness for C2 (amended) at the spec scenario product. -/
theorem discount_projection_formulas_witness :
    scenarioProduct.isDiscountActive 1700000000000 = true ∧
    scenarioProduct.effectivePrice 1700000000000 =
      toFixed2 (scenarioProduct.price -
        scenarioProduct.price * scenarioProduct.discount_percentage.getD 0 / 100) :=
  ⟨by decide, ((discount_projection_formulas scenarioProduct 1700000000000).1 (by decide)).1⟩

/-- Counterexample for C2 as stated: at `price = 0.07`, `percentage = 50`
(active, open window) the raw amount `0.035` is a rounding tie; the
claimed `discountAmount` = `round2(price*pct/100)` = `0.04`, but the code
computes `effectivePrice = round2(0.07 - 0.035) = 0.04` and
`discountAmount = round2(0.07 - 0.04) = 0.03`. -/
theorem discountAmount_rounding_counterexample :
    tieProduct.isDiscountActive 0 = true ∧
    tieProduct.discountAmount 0 ≠ calculatePercentage (some tieProduct.price) (some 50) := by
  have hact : tieProduct.isDiscountActive 0 = true := by decide
  have heff : tieProduct.effectivePrice 0 = 4 / 100 := by
    rw [effectivePrice_of_active hact]
    have h1 : tieProduct.price - tieProduct.price * tieProduct.discount_percentage.getD 0 / 100
        = 7 / 200 := by
      simp [tieProduct]
      norm_num
    rw [h1]
    have h2 := toFixed2_eval (7 / 200) 4 (by norm_num) (by norm_num)
    rw [h2]
    norm_num
  have hda : tieProduct.discountAmount 0 = 3 / 100 := by
    rw [discountAmount_of_active hact, heff]
    have h1 : tieProduct.price - 4 / 100 = 3 / 100 := by
      simp [tieProduct]
      norm_num
    rw [h1]
    have h2 := toFixed2_eval (3 / 100) 3 (by norm_num) (by norm_num)
    rw [h2]
    norm_num
  have hcp : calculatePercentage (some tieProduct.price) (some 50) = 4 / 100 := by
    show toPreciseDecimal (some (tieProduct.price * 50 / 100)) 2 = 4 / 100
    have h1 : tieProduct.price * 50 / 100 = 7 / 200 := by
      simp [tieProduct]
      norm_num
    rw [h1]
    have h2 := toPrecise_eval (7 / 200) 4 (by norm_num [jsEpsilon]) (by norm_num [jsEpsilon])
    rw [h2]
    norm_num
  refine ⟨hact, ?_⟩
  rw [hda, hcp]
  norm_num

/-- C3: for a nonnegative 2-decimal price and a percentage in (0,100]
whose window contains `now`, the projected `effectivePrice` and
`discountAmount` satisfy `effectivePrice + discountAmount = price`
exactly. -/
theorem effective_plus_discount_eq_price (p : Product) (now : ℤ)
    (hcent : IsCent p.price) (hp0 : 0 ≤ p.price) (pct : ℚ)
    (hpct : p.discount_percentage = some pct) (hpos : 0 < pct) (hle : pct ≤ 100)
    (hstart : ∀ s, p.discount_start_date = some s → s ≤ now)
    (hend : ∀ e, p.discount_end_date = some e → now ≤ e) :
    p.effectivePrice now + p.discountAmount now = p.price := by
  have hact : p.isDiscountActive now = true :=
    (discountActive_iff p now).mpr ⟨pct, hpct, hpos, hstart, hend⟩
  rw [discountAmount_exact hact hcent]
  ring

/-- Witness for C3 at the spec scenario product, with `now` inside the
window. -/
theorem effective_plus_discount_eq_price_witness :
    IsCent scenarioProduct.price ∧ (0 : ℚ) ≤ scenarioProduct.price ∧
    (0 : ℚ) < 20 ∧ (20 : ℚ) ≤ 100 ∧
    scenarioProduct.effectivePrice 1700000000000 +
      scenarioProduct.discountAmount 1700000000000 = scenarioProduct.price := by
  refine ⟨⟨10000, by norm_num [scenarioProduct]⟩, by norm_num [scenarioProduct],
    by norm_num, by norm_num, ?_⟩
  exact effective_plus_discount_eq_price scenarioProduct 1700000000000
    ⟨10000, by norm_num [scenarioProduct]⟩ (by norm_num [scenarioProduct]) 20 rfl
    (by norm_num) (by norm_num)
    (by intro s hs; simp [scenarioProduct] at hs; omega)
    (by intro e he; simp [scenarioProduct] at he; omega)

/-! ## The monetary-arithmetic contract -/

theorem floor_cent_shift (r : ℤ) (c : ℚ) (h0 : 0 ≤ c) (h1 : c < 1 / 100)
    (hr0 : 0 ≤ r) (hr1 : r < 100) :
    ⌊(r : ℚ) / 100 + 1 / 2 + c⌋ = if r < 50 then 0 else 1 := by
  have hq0 : (0 : ℚ) ≤ (r : ℚ) := by exact_mod_cast hr0
  have hq1 : (r : ℚ) ≤ 99 := by
    have : r ≤ 99 := by omega
    exact_mod_cast this
  split
  · next h =>
      have hq2 : (r : ℚ) ≤ 49 := by
        have : r ≤ 49 := by omega
        exact_mod_cast this
      rw [Int.floor_eq_iff]
      constructor
      · push_cast
        linarith
      · push_cast
        linarith
  · next h =>
      have hq2 : (50 : ℚ) ≤ (r : ℚ) := by
        have : 50 ≤ r := by omega
        exact_mod_cast this
      rw [Int.floor_eq_iff]
      constructor
      · push_cast
        linarith
      · push_cast
        linarith

theorem floor_cent_eps_eq (m : ℤ) (c : ℚ) (h0 : 0 ≤ c) (h1 : c < 1 / 100) :
    ⌊(m : ℚ) / 100 + c + 1 / 2⌋ = ⌊(m : ℚ) / 100 + 1 / 2⌋ := by
  have hm : m = 100 * (m / 100) + m % 100 := (Int.ediv_add_emod m 100).symm
  have hr0 : 0 ≤ m % 100 := Int.emod_nonneg m (by norm_num)
  have hr1 : m % 100 < 100 := Int.emod_lt_of_pos m (by norm_num)
  have hsplit : (m : ℚ) / 100 = ((m / 100 : ℤ) : ℚ) + ((m % 100 : ℤ) : ℚ) / 100 := by
    rw [show ((m : ℚ)) = ((100 * (m / 100) + m % 100 : ℤ) : ℚ) by exact_mod_cast hm]
    push_cast
    ring
  rw [hsplit,
    show ((m / 100 : ℤ) : ℚ) + ((m % 100 : ℤ) : ℚ) / 100 + c + 1 / 2
      = (((m % 100 : ℤ) : ℚ) / 100 + 1 / 2 + c) + ((m / 100 : ℤ) : ℚ) by ring,
    show ((m / 100 : ℤ) : ℚ) + ((m % 100 : ℤ) : ℚ) / 100 + 1 / 2
      = (((m % 100 : ℤ) : ℚ) / 100 + 1 / 2 + 0) + ((m / 100 : ℤ) : ℚ) by ring,
    Int.floor_add_int, Int.floor_add_int,
    floor_cent_shift _ c h0 h1 hr0 hr1,
    floor_cent_shift _ 0 le_rfl (by norm_num) hr0 hr1]

theorem toPrecise_eq_specRound_q4 (n : ℕ) :
    toPreciseDecimal (some ((n : ℚ) / 10 ^ 4)) 2 = specRoundHalfAway2 ((n : ℚ) / 10 ^ 4) := by
  have harg : ((n : ℚ) / 10 ^ 4) * 100 = ((n : ℤ) : ℚ) / 100 := by
    push_cast
    ring
  have hnn : (0 : ℚ) ≤ ((n : ℚ) / 10 ^ 4) * 100 := by positivity
  have heps0 : (0 : ℚ) ≤ jsEpsilon * 100 := by rw [jsEpsilon]; norm_num
  have heps1 : jsEpsilon * 100 < 1 / 100 := by rw [jsEpsilon]; norm_num
  rw [toPreciseDecimal_some, specRoundHalfAway2, if_pos hnn, harg,
    show ((n : ℤ) : ℚ) / 100 + jsEpsilon * 100 + 1 / 2
      = ((n : ℤ) : ℚ) / 100 + (jsEpsilon * 100) + 1 / 2 by ring,
    floor_cent_eps_eq _ _ heps0 heps1]

/-- C7 (amended): the arithmetic utilities accept `number | string`
operands; `safeAdd` treats an unparseable summand as zero while the binary
operations return 0 outright when either operand is unparseable; division
by zero and the empty sum return 0; every result lands on the 2-decimal
grid, produced by integer scaling (multiply by 10², `Math.round` after
adding `Number.EPSILON`, divide) — which rounds ties toward +∞, and agrees
with round-half-away-from-zero on nonnegative operands of at most 4
decimal places. -/
theorem monetary_arithmetic_contract :
    (∀ a : JSValue, safeDivide a (some 0) = 0) ∧
    (∀ a : JSValue, safeDivide a none = 0 ∧ safeDivide none a = 0) ∧
    sumArray [] = 0 ∧
    (∀ l : List JSValue, safeAdd (none :: l) = safeAdd l) ∧
    (∀ b : JSValue, safeSubtract none b = 0 ∧ safeSubtract b none = 0 ∧
      safeMultiply none b = 0 ∧ safeMultiply b none = 0 ∧
      calculatePercentage none b = 0 ∧ calculatePercentage b none = 0) ∧
    (∀ x y : ℚ, safeAdd [some x, some y] = toPreciseDecimal (some (x + y)) 2) ∧
    (∀ v : JSValue, IsCent (toPreciseDecimal v 2)) ∧
    (∀ n : ℕ, toPreciseDecimal (some ((n : ℚ) / 10 ^ 4)) 2 =
      specRoundHalfAway2 ((n : ℚ) / 10 ^ 4)) := by
  refine ⟨?_, ?_, ?_, ?_, ?_, ?_, isCent_toPrecise, toPrecise_eq_specRound_q4⟩
  · intro a
    match a with
    | none => rfl
    | some x => simp [safeDivide]
  · intro a
    match a with
    | none => exact ⟨rfl, rfl⟩
    | some x => exact ⟨rfl, rfl⟩
  · show toPreciseDecimal (some _) 2 = 0
    rw [show (List.foldl (fun acc val => acc + Option.getD val 0) 0 ([] : List JSValue)) = 0
      from rfl]
    rw [show (0 : ℚ) = ((0 : ℤ) : ℚ) / 100 by norm_num, toPrecise_cent]
  · intro l
    simp [safeAdd]
  · intro b
    match b with
    | none => exact ⟨rfl, rfl, rfl, rfl, rfl, rfl⟩
    | some x => exact ⟨rfl, rfl, rfl, rfl, rfl, rfl⟩
  · intro x y
    simp [safeAdd]

/-- Counterexample for C7 as stated: the code rounds with `Math.round`
(ties toward +∞ on the epsilon-shifted value), not half-away-from-zero:
`safeSubtract(0, 2.005)` yields `-2.00` where half-away-from-zero gives
`-2.01`; and `safeSubtract` with an unparseable minuend returns `0`
rather than treating it as zero (which would give `-5`). -/
theorem monetary_rounding_counterexample :
    safeSubtract (some 0) (some (401 / 200)) ≠ specRoundHalfAway2 ((0 : ℚ) - 401 / 200) ∧
    safeSubtract none (some 5) ≠ specRoundHalfAway2 ((0 : ℚ) - 5) := by
  have hcode : safeSubtract (some 0) (some (401 / 200)) = -2 := by
    show toPreciseDecimal (some ((0 : ℚ) - 401 / 200)) 2 = -2
    rw [show (0 : ℚ) - 401 / 200 = -(401 / 200) by norm_num]
    have h2 := toPrecise_eval (-(401 / 200)) (-200) (by norm_num [jsEpsilon])
      (by norm_num [jsEpsilon])
    rw [h2]
    norm_num
  have hspec : specRoundHalfAway2 ((0 : ℚ) - 401 / 200) = -201 / 100 := by
    rw [specRoundHalfAway2, if_neg (by norm_num)]
    rw [show ((0 : ℚ) - 401 / 200) * 100 - 1 / 2 = ((-201 : ℤ) : ℚ) by push_cast; ring]
    rw [Int.ceil_intCast]
    norm_num
  have hspec5 : specRoundHalfAway2 ((0 : ℚ) - 5) = -5 := by
    rw [specRoundHalfAway2, if_neg (by norm_num)]
    rw [show ((0 : ℚ) - 5) * 100 - 1 / 2 = -(1001 / 2) by norm_num]
    rw [show ⌈-(1001 / 2 : ℚ)⌉ = -500 from Int.ceil_eq_iff.mpr (by constructor <;> norm_num)]
    norm_num
  constructor
  · rw [hcode, hspec]
    norm_num
  · rw [show safeSubtract none (some 5) = 0 from rfl, hspec5]
    norm_num

/-! ## Cart aggregation -/

theorem foldl_add_map {α M : Type} [AddCommMonoid M] (f : α → M) (l : List α) (c : M) :
    l.foldl (fun s a => s + f a) c = c + (l.map f).sum := by
  induction l generalizing c with
  | nil => simp
  | cons hd t ih =>
      simp only [List.foldl_cons, List.map_cons, List.sum_cons, ih]
      rw [add_assoc]

theorem isCent_sum : ∀ {l : List ℚ}, (∀ x ∈ l, IsCent x) → IsCent l.sum := by
  intro l
  induction l with
  | nil => intro _; simpa using isCent_zero
  | cons hd t ih =>
      intro h
      rw [List.sum_cons]
      exact (h hd (by simp)).add (ih (fun x hx => h x (List.mem_cons_of_mem _ hx)))

theorem sumArray_somes (l : List ℚ) :
    sumArray (l.map some) = toPreciseDecimal (some l.sum) 2 := by
  rw [sumArray, safeAdd]
  congr 2
  rw [List.foldl_map]
  have h := foldl_add_map (fun a : ℚ => a) l 0
  simp only [List.map_id'] at h
  simpa using h

theorem cartLine_eq {now : ℤ} {item : CartItem} (hc : IsCent item.product.price) :
    cartLineUtils now item = cartLineService now item := by
  have heff : IsCent (item.product.effectivePrice now) := isCent_effectivePrice hc now
  have hlt : IsCent ((item.quantity : ℚ) * item.product.effectivePrice now) :=
    heff.int_mul item.quantity
  have holt : IsCent ((item.quantity : ℚ) * item.product.price) := hc.int_mul item.quantity
  unfold cartLineUtils cartLineService calculateLineTotal safeMultiply safeSubtract
  simp only [hc.toPrecise_eq, hlt.toPrecise_eq, holt.toPrecise_eq]
  rw [(holt.sub hlt).toPrecise_eq, hlt.toFixed2_eq, (holt.sub hlt).toFixed2_eq]

theorem cartLineService_lineTotal (now : ℤ) (item : CartItem) :
    (cartLineService now item).lineTotal
      = toFixed2 ((item.quantity : ℚ) * item.product.effectivePrice now) := rfl

theorem cartLineService_quantity (now : ℤ) (item : CartItem) :
    (cartLineService now item).quantity = item.quantity := rfl

theorem cartLineService_originalPrice (now : ℤ) (item : CartItem) :
    (cartLineService now item).product.originalPrice = item.product.price := rfl

theorem map_some_comp {α : Type} (f : α → ℚ) (l : List α) :
    l.map (fun a => some (f a)) = (l.map f).map some := by
  induction l with
  | nil => rfl
  | cons a t ih => simp only [List.map_cons, ih]

theorem isCent_service_lineTotal_sum (cartItems : List CartItem) (now : ℤ) :
    IsCent ((cartItems.map (cartLineService now)).map (fun i => i.lineTotal)).sum := by
  apply isCent_sum
  intro x hx
  rcases List.mem_map.mp hx with ⟨i, hi, rfl⟩
  rcases List.mem_map.mp hi with ⟨item, hitem, rfl⟩
  rw [cartLineService_lineTotal]
  exact isCent_toFixed2 _

theorem isCent_service_origTotal_sum {cartItems : List CartItem} (now : ℤ)
    (h : ∀ item ∈ cartItems, IsCent item.product.price) :
    IsCent ((cartItems.map (cartLineService now)).map
      (fun i => (i.quantity : ℚ) * i.product.originalPrice)).sum := by
  apply isCent_sum
  intro x hx
  rcases List.mem_map.mp hx with ⟨i, hi, rfl⟩
  rcases List.mem_map.mp hi with ⟨item, hitem, rfl⟩
  rw [cartLineService_quantity, cartLineService_originalPrice]
  exact (h item hitem).int_mul item.quantity

theorem getCart_agree {cartItems : List CartItem} {now : ℤ}
    (h : ∀ item ∈ cartItems, IsCent item.product.price) :
    getCartUtils cartItems now = getCartService cartItems now := by
  have hmap : cartItems.map (cartLineUtils now) = cartItems.map (cartLineService now) :=
    List.map_congr_left (fun item hi => cartLine_eq (h item hi))
  have hTP := isCent_service_lineTotal_sum cartItems now
  have hTOP := isCent_service_origTotal_sum now h
  simp only [getCartUtils, getCartService]
  rw [hmap]
  have hinner : ((cartItems.map (cartLineService now)).map
        (fun item => some (calculateLineTotal (item.quantity : ℚ)
          (some item.product.originalPrice))))
      = ((cartItems.map (cartLineService now)).map
        (fun item => some ((item.quantity : ℚ) * item.product.originalPrice))) := by
    apply List.map_congr_left
    intro i hi
    rcases List.mem_map.mp hi with ⟨item, hitem, rfl⟩
    rw [cartLineService_quantity, cartLineService_originalPrice]
    show some (toPreciseDecimal (some ((item.quantity : ℚ) * item.product.price)) 2)
      = some ((item.quantity : ℚ) * item.product.price)
    rw [((h item hitem).int_mul item.quantity).toPrecise_eq]
  rw [hinner]
  have hsome1 := map_some_comp (fun i : CartItemWithPricing => i.lineTotal)
    (cartItems.map (cartLineService now))
  have hsome2 := map_some_comp
    (fun i : CartItemWithPricing => (i.quantity : ℚ) * i.product.originalPrice)
    (cartItems.map (cartLineService now))
  rw [hsome1, hsome2, sumArray_somes, sumArray_somes, hTP.toPrecise_eq, hTOP.toPrecise_eq]
  rw [foldl_add_map (fun i : CartItemWithPricing => i.lineTotal), zero_add]
  rw [foldl_add_map (fun i : CartItemWithPricing => (i.quantity : ℚ) * i.product.originalPrice),
    zero_add]
  rw [hTP.toFixed2_eq, hTOP.toFixed2_eq, (hTOP.sub hTP).toFixed2_eq]
  show CartResponse.mk _ _ _ _ _ _ = CartResponse.mk _ _ _ _ _ _
  rw [safeSubtract]
  rw [(hTOP.sub hTP).toPrecise_eq]

theorem getCartService_items (cartItems : List CartItem) (now : ℤ) :
    (getCartService cartItems now).items = cartItems.map (cartLineService now) := rfl

theorem getCartService_totalPrice (cartItems : List CartItem) (now : ℤ) :
    (getCartService cartItems now).totalPrice
      = toFixed2 (((cartItems.map (cartLineService now)).map (fun i => i.lineTotal)).sum) := by
  simp only [getCartService]
  rw [foldl_add_map (fun i : CartItemWithPricing => i.lineTotal), zero_add]

theorem getCartService_totalOriginalPrice (cartItems : List CartItem) (now : ℤ) :
    (getCartService cartItems now).totalOriginalPrice
      = toFixed2 (((cartItems.map (cartLineService now)).map
          (fun i => (i.quantity : ℚ) * i.product.originalPrice)).sum) := by
  simp only [getCartService]
  rw [foldl_add_map (fun i : CartItemWithPricing => (i.quantity : ℚ) * i.product.originalPrice),
    zero_add]

theorem getCartService_totalSavings (cartItems : List CartItem) (now : ℤ) :
    (getCartService cartItems now).totalSavings
      = toFixed2 ((((cartItems.map (cartLineService now)).map
            (fun i => (i.quantity : ℚ) * i.product.originalPrice)).sum)
          - (((cartItems.map (cartLineService now)).map (fun i => i.lineTotal)).sum)) := by
  simp only [getCartService]
  rw [foldl_add_map (fun i : CartItemWithPricing => i.lineTotal), zero_add,
    foldl_add_map (fun i : CartItemWithPricing => (i.quantity : ℚ) * i.product.originalPrice),
    zero_add]

/-- C10: for every cart state whose products carry 2-decimal prices (the
`decimal(10,2)` column invariant), the plain-JS `getCart` of
`cart.service.ts` and the arithmetic-utilities `getCart` embedded in
`cart.controller.ts` return identical cart views (same per-line
`lineTotal`/`lineSavings`/product projection and same totals). -/
theorem getCart_implementations_equal (cartItems : List CartItem) (now : ℤ)
    (h : ∀ item ∈ cartItems, IsCent item.product.price) :
    getCartUtils cartItems now = getCartService cartItems now :=
  getCart_agree h

/-- Witness for C10 at the spec scenario cart (A: price 100, 25% off,
qty 2; B: price 50, no discount, qty 1). -/
theorem getCart_implementations_equal_witness :
    (∀ item ∈ scenarioCart, IsCent item.product.price) ∧
    getCartUtils scenarioCart 0 = getCartService scenarioCart 0 := by
  have hc : ∀ item ∈ scenarioCart, IsCent item.product.price := by
    intro item hitem
    simp only [scenarioCart, List.mem_cons, List.not_mem_nil, or_false] at hitem
    rcases hitem with h1 | h2
    · rw [h1]
      exact ⟨10000, by norm_num [prodA]⟩
    · rw [h2]
      exact ⟨5000, by norm_num [prodB]⟩
  exact ⟨hc, getCart_implementations_equal scenarioCart 0 hc⟩

/-- C4: in both aggregate-read implementations, for every cart state with
2-decimal product prices (the empty cart included) the returned
`totalPrice` equals the sum of the displayed per-line `lineTotal`s,
`totalOriginalPrice` equals the sum of the per-line original totals
`quantity * originalPrice`, and `totalSavings` equals
`totalOriginalPrice - totalPrice` computed from the returned totals, so
the cart-level figures reconcile exactly against the line values. -/
theorem cart_totals_reconcile (cartItems : List CartItem) (now : ℤ)
    (h : ∀ item ∈ cartItems, IsCent item.product.price) :
    ((getCartService cartItems now).totalPrice
        = ((getCartService cartItems now).items.map (fun i => i.lineTotal)).sum ∧
      (getCartService cartItems now).totalOriginalPrice
        = ((getCartService cartItems now).items.map
            (fun i => (i.quantity : ℚ) * i.product.originalPrice)).sum ∧
      (getCartService cartItems now).totalSavings
        = (getCartService cartItems now).totalOriginalPrice
            - (getCartService cartItems now).totalPrice) ∧
    ((getCartUtils cartItems now).totalPrice
        = ((getCartUtils cartItems now).items.map (fun i => i.lineTotal)).sum ∧
      (getCartUtils cartItems now).totalOriginalPrice
        = ((getCartUtils cartItems now).items.map
            (fun i => (i.quantity : ℚ) * i.product.originalPrice)).sum ∧
      (getCartUtils cartItems now).totalSavings
        = (getCartUtils cartItems now).totalOriginalPrice
            - (getCartUtils cartItems now).totalPrice) := by
  have hTP := isCent_service_lineTotal_sum cartItems now
  have hTOP := isCent_service_origTotal_sum now h
  have hservice :
      (getCartService cartItems now).totalPrice
        = ((getCartService cartItems now).items.map (fun i => i.lineTotal)).sum ∧
      (getCartService cartItems now).totalOriginalPrice
        = ((getCartService cartItems now).items.map
            (fun i => (i.quantity : ℚ) * i.product.originalPrice)).sum ∧
      (getCartService cartItems now).totalSavings
        = (getCartService cartItems now).totalOriginalPrice
            - (getCartService cartItems now).totalPrice := by
    rw [getCartService_items, getCartService_totalPrice, getCartService_totalOriginalPrice,
      getCartService_totalSavings, hTP.toFixed2_eq, hTOP.toFixed2_eq,
      (hTOP.sub hTP).toFixed2_eq]
    exact ⟨rfl, rfl, rfl⟩
  exact ⟨hservice, by rw [getCart_agree h]; exact hservice⟩

/-- Witness for C4 at the spec scenario cart. -/
theorem cart_totals_reconcile_witness :
    (∀ item ∈ scenarioCart, IsCent item.product.price) ∧
    (getCartService scenarioCart 0).totalPrice
      = ((getCartService scenarioCart 0).items.map (fun i => i.lineTotal)).sum ∧
    (getCartService scenarioCart 0).totalSavings
      = (getCartService scenarioCart 0).totalOriginalPrice
          - (getCartService scenarioCart 0).totalPrice := by
  have hc : ∀ item ∈ scenarioCart, IsCent item.product.price := by
    intro item hitem
    simp only [scenarioCart, List.mem_cons, List.not_mem_nil, or_false] at hitem
    rcases hitem with h1 | h2
    · rw [h1]
      exact ⟨10000, by norm_num [prodA]⟩
    · rw [h2]
      exact ⟨5000, by norm_num [prodB]⟩
  refine ⟨hc, (cart_totals_reconcile scenarioCart 0 hc).1.1,
    (cart_totals_reconcile scenarioCart 0 hc).1.2.2⟩

/-! ## Cart mutation: addToCart -/

theorem find?_eq_of_filter_cons {α : Type} {p : α → Bool} :
    ∀ {l : List α} {a : α} {t : List α}, l.filter p = a :: t → l.find? p = some a := by
  intro l
  induction l with
  | nil =>
      intro a t h
      simp at h
  | cons hd tl ih =>
      intro a t h
      by_cases hp : p hd
      · rw [List.filter_cons_of_pos hp] at h
        rw [List.find?_cons_of_pos _ hp]
        exact congrArg some (List.head_eq_of_cons_eq h)
      · rw [List.filter_cons_of_neg hp] at h
        rw [List.find?_cons_of_neg _ hp]
        exact ih h

theorem filter_map_replace {pid : String} :
    ∀ {items : List CartItem} {L : CartItem} (L' : CartItem),
      L'.product_id = L.product_id → L'.id = L.id →
      items.filter (fun it => it.product_id == pid) = [L] →
      (items.map (fun it => it.id)).Nodup →
      (items.map (fun it => if it.id == L.id then L' else it)).filter
          (fun it => it.product_id == pid) = [L'] := by
  intro items
  induction items with
  | nil =>
      intro L L' hpid hid hflt hids
      simp at hflt
  | cons hd tl ih =>
      intro L L' hpid hid hflt hids
      rw [List.map_cons, List.nodup_cons] at hids
      by_cases hp : (hd.product_id == pid)
      · rw [@List.filter_cons_of_pos _ (fun it => it.product_id == pid) hd tl hp] at hflt
        have hhd : hd = L := List.head_eq_of_cons_eq hflt
        have htl : tl.filter (fun it => it.product_id == pid) = [] :=
          List.tail_eq_of_cons_eq hflt
        subst hhd
        rw [List.map_cons]
        have hmap : tl.map (fun it => if it.id == hd.id then L' else it) = tl := by
          have hmi : tl.map (fun it => if it.id == hd.id then L' else it) = tl.map id :=
            List.map_congr_left (fun it hit => by
              have hne : it.id ≠ hd.id := fun he =>
                hids.1 (he ▸ List.mem_map_of_mem (fun x => x.id) hit)
              simp [hne])
          rw [hmi, List.map_id]
        rw [hmap]
        rw [if_pos (by simp)]
        rw [@List.filter_cons_of_pos _ (fun it => it.product_id == pid) L' tl
          (by show (L'.product_id == pid) = true; rw [hpid]; exact hp), htl]
      · rw [@List.filter_cons_of_neg _ (fun it => it.product_id == pid) hd tl hp] at hflt
        have hLmem : L ∈ tl := by
          have hx : L ∈ tl.filter (fun it => it.product_id == pid) := by
            rw [hflt]
            exact List.mem_cons_self L []
          exact (List.mem_filter.mp hx).1
        have hne : hd.id ≠ L.id := by
          intro he
          exact hids.1 (he ▸ List.mem_map_of_mem (fun x => x.id) hLmem)
        rw [List.map_cons]
        rw [if_neg (by simpa using hne)]
        rw [@List.filter_cons_of_neg _ (fun it => it.product_id == pid) hd _ hp]
        exact ih L' hpid hid hflt hids.2

/-- C5: if the cart holds exactly one line `L` for the product (primary
keys distinct, positive quantities), re-adding quantity `q2` is rejected
iff `L.quantity + q2` exceeds the product's current stock — the check uses
the total prospective quantity — and on success the cart again holds
exactly one line for that product, with quantity `L.quantity + q2`, never
a second line. -/
theorem addToCart_merges (state : CartState) (dto : AddToCartDto) (newId : String)
    (now : ℤ) (product : Product) (L : CartItem)
    (hfind : findOneEntity state.products dto.product_id = some product)
    (hline : state.items.filter (fun it => it.product_id == dto.product_id) = [L])
    (hids : (state.items.map (fun it => it.id)).Nodup)
    (hq1 : 0 < L.quantity) (hq2 : 0 < dto.quantity) :
    ((∃ e, (addToCart state dto newId now).2 = Except.error e) ↔
        product.stock_quantity < L.quantity + dto.quantity) ∧
    (L.quantity + dto.quantity ≤ product.stock_quantity →
      (addToCart state dto newId now).1.items.filter
          (fun it => it.product_id == dto.product_id)
        = [{ L with quantity := L.quantity + dto.quantity }]) := by
  have hfq : state.items.find? (fun it => it.product_id == dto.product_id) = some L :=
    find?_eq_of_filter_cons hline
  simp only [addToCart, hfind, hfq]
  by_cases hc1 : product.stock_quantity < dto.quantity
  · rw [if_pos hc1]
    refine ⟨⟨fun _ => by omega, fun _ => ⟨_, rfl⟩⟩, fun hle2 => absurd hc1 (by omega)⟩
  · rw [if_neg hc1]
    by_cases hc2 : product.stock_quantity < L.quantity + dto.quantity
    · rw [if_pos hc2]
      refine ⟨⟨fun _ => hc2, fun _ => ⟨_, rfl⟩⟩, fun hle2 => absurd hc2 (by omega)⟩
    · rw [if_neg hc2]
      refine ⟨⟨fun he => ?_, fun hlt => absurd hlt hc2⟩, fun _ => ?_⟩
      · rcases he with ⟨e, he⟩
        simp at he
      · exact filter_map_replace _ rfl rfl hline hids

/-- Witness for C5: a cart holding 4 of the stock-10 product merges a
request for 5 more into a single line of 9. -/
theorem addToCart_merges_witness :
    findOneEntity stockCartState.products "sp" = some stockProduct ∧
    ((4 : ℤ) + 5 ≤ stockProduct.stock_quantity) ∧
    (addToCart stockCartState { product_id := "sp", quantity := 5 } "l2" 0).1.items.filter
        (fun it => it.product_id == "sp")
      = [{ id := "l1", product_id := "sp", quantity := 4 + 5, created_at := 0,
           product := stockProduct }] := by
  refine ⟨by decide, by decide, ?_⟩
  exact (addToCart_merges stockCartState { product_id := "sp", quantity := 5 } "l2" 0
    stockProduct
    { id := "l1", product_id := "sp", quantity := 4, created_at := 0, product := stockProduct }
    (by decide) (by decide) (by decide) (by decide) (by decide)).2 (by decide)

/-- C6: an add whose requested quantity (no existing line) or merged
quantity (existing line, positive quantities) exceeds the product's
current stock fails with a `BadRequestException` and leaves the cart
state unchanged. -/
theorem addToCart_rejects_insufficient_stock (state : CartState) (dto : AddToCartDto)
    (newId : String) (now : ℤ) (product : Product)
    (hfind : findOneEntity state.products dto.product_id = some product)
    (hpos : ∀ it ∈ state.items, 0 < it.quantity)
    (hexceed : product.stock_quantity <
      (match state.items.find? (fun it => it.product_id == dto.product_id) with
       | none => dto.quantity
       | some L => L.quantity + dto.quantity)) :
    (addToCart state dto newId now).1 = state ∧
    ∃ msg, (addToCart state dto newId now).2 = Except.error (ApiError.badRequest msg) := by
  rcases hf : state.items.find? (fun it => it.product_id == dto.product_id) with _ | L
  · rw [hf] at hexceed
    simp only [addToCart, hfind, hf]
    rw [if_pos hexceed]
    exact ⟨rfl, _, rfl⟩
  · rw [hf] at hexceed
    simp only [addToCart, hfind, hf]
    by_cases hc1 : product.stock_quantity < dto.quantity
    · rw [if_pos hc1]
      exact ⟨rfl, _, rfl⟩
    · rw [if_neg hc1, if_pos hexceed]
      exact ⟨rfl, _, rfl⟩

/-- Witness for C6: the spec scenario `addToCart(qty = 15)` against stock
10 on an empty cart is rejected and the cart stays empty. -/
theorem addToCart_rejects_insufficient_stock_witness :
    findOneEntity emptyCartState.products "sp" = some stockProduct ∧
    (addToCart emptyCartState { product_id := "sp", quantity := 15 } "l9" 0).1
        = emptyCartState ∧
    ∃ msg, (addToCart emptyCartState { product_id := "sp", quantity := 15 } "l9" 0).2
        = Except.error (ApiError.badRequest msg) := by
  have h := addToCart_rejects_insufficient_stock emptyCartState
    { product_id := "sp", quantity := 15 } "l9" 0 stockProduct (by decide)
    (by
      intro it hit
      simp [emptyCartState] at hit)
    (by decide)
  exact ⟨by decide, h.1, h.2⟩

/-! ## Image attachment orchestration -/

/-- Counterexample for C9 as stated: updating a product that has an image
with a replacement whose upload FAILS still deletes the old blob — the
delete of the previous locator is issued before the upload, not only
after a successful one. -/
theorem update_image_order_counterexample :
    S3Event.deleteFile "https://bucket.s3.us-east-1.amazonaws.com/products/old.jpg"
        ∈ (updateProductImage imageProduct true (Except.error "network")).1 ∧
    (∃ msg, (updateProductImage imageProduct true (Except.error "network")).2
        = Except.error (ApiError.badRequest msg)) :=
  ⟨by decide, "Failed to upload file: network", rfl⟩

/-- C9 (amended): on update with a replacement image the previous locator
(if any) is deleted first — best-effort, before the upload — then the new
image is uploaded; the new locator is written only when the upload
succeeds (a failed upload aborts the update with an InvalidInput-class
error, the old blob already deleted); when no new image is supplied, no
Blob Store call is made and the stored locator is left untouched. -/
theorem update_image_orchestration (p : Product) (uploadOutcome : Except String String) :
    (updateProductImage p false uploadOutcome = ([], Except.ok p.image_url)) ∧
    (∀ url, uploadOutcome = Except.ok url →
      updateProductImage p true uploadOutcome
        = ((match p.image_url with
            | some oldUrl => [S3Event.deleteFile oldUrl]
            | none => []) ++ [S3Event.uploadFile], Except.ok (some url))) ∧
    (∀ msg, uploadOutcome = Except.error msg →
      updateProductImage p true uploadOutcome
        = ((match p.image_url with
            | some oldUrl => [S3Event.deleteFile oldUrl]
            | none => []) ++ [S3Event.uploadFile],
           Except.error (ApiError.badRequest ("Failed to upload file: " ++ msg)))) := by
  refine ⟨rfl, ?_, ?_⟩
  · intro url h
    subst h
    rfl
  · intro msg h
    subst h
    rfl

/-- Witness for C9 (amended): a successful replacement upload on
`imageProduct` deletes the old blob, uploads, and writes the new
locator. -/
theorem update_image_orchestration_witness :
    updateProductImage imageProduct true (Except.ok "https://bucket/new.jpg")
      = ([S3Event.deleteFile "https://bucket.s3.us-east-1.amazonaws.com/products/old.jpg",
          S3Event.uploadFile], Except.ok (some "https://bucket/new.jpg")) :=
  (update_image_orchestration imageProduct (Except.ok "https://bucket/new.jpg")).2.1
    "https://bucket/new.jpg" rfl

/-! ## Cached read path and write invalidation -/

theorem redisGet_del_self (cache : Cache) (key : String) :
    redisGet (redisDel cache key) key = none := by
  rw [redisGet, redisDel]
  rw [List.find?_eq_none.mpr]
  · rfl
  · intro kv hkv
    have h2 := (List.mem_filter.mp hkv).2
    simp at h2
    simp [h2]

theorem redisGet_filter_none {cache : Cache} {key : String}
    (h : redisGet cache key = none) (q : (String × ProductView) → Bool) :
    redisGet (cache.filter q) key = none := by
  rw [redisGet] at h ⊢
  have hf : cache.find? (fun kv => kv.1 == key) = none := by
    cases hfind : cache.find? (fun kv => kv.1 == key) with
    | none => rfl
    | some kv =>
        rw [hfind] at h
        simp at h
  rw [List.find?_eq_none.mpr]
  · rfl
  · intro kv hkv
    exact List.find?_eq_none.mp hf kv (List.mem_filter.mp hkv).1

theorem find?_map_replace {l : List Product} {id : String} {a : Product} (b : Product)
    (hfind : l.find? (fun p => p.id == id) = some a) (hb : (b.id == id) = true) :
    (l.map (fun p => if p.id == id then b else p)).find? (fun p => p.id == id)
      = some b := by
  induction l with
  | nil => simp at hfind
  | cons hd tl ih =>
      by_cases hp : (hd.id == id)
      · rw [List.map_cons, if_pos hp]
        exact List.find?_cons_of_pos _ hb
      · rw [@List.find?_cons_of_neg _ (fun p => p.id == id) hd tl hp] at hfind
        rw [List.map_cons, if_neg hp,
          @List.find?_cons_of_neg _ (fun p => p.id == id) hd _ hp]
        exact ih hfind

/-- C8 (amended): a completed product update deletes the service-level
cache key `product:<id>` and every `products_list:*` key before the
response is returned, so any subsequent get that does not hit the
interceptor-level route cache returns the projection of the updated
record; the interceptor's own entry for `GET /products/:id` is keyed
differently (`product:GET:/products/<id>:{"id":"<id>"}`) and is NOT
invalidated, so a get served from it can still return the pre-update
projection until its TTL expires. -/
theorem update_invalidation_scope (s : SysState) (id : String) (dto : UpdateProductDto)
    (now : ℤ) (s' : SysState) (saved : Product)
    (h : updateProduct s id dto = (s', Except.ok saved)) :
    redisGet s'.cache (productCacheKey id) = none ∧
    (∀ kv ∈ s'.cache, ¬ List.isPrefixOf "products_list:".data kv.1.data) ∧
    (redisGet s'.cache (findOneRouteCacheKey id) = none →
      (getProductRoute s' id now).1 = some (ProductView.fromProduct saved now)) := by
  unfold updateProduct at h
  split at h
  · simp at h
  split at h
  · simp at h
  rcases hfind : s.store.find? (fun p => p.id == id) with _ | product
  · rw [hfind] at h
    simp at h
  rw [hfind] at h
  rw [Prod.mk.injEq] at h
  obtain ⟨hs', hsaved⟩ := h
  rw [Except.ok.injEq] at hsaved
  have hcache : s'.cache
      = redisFlushPattern (redisDel s.cache (productCacheKey id)) "products_list:*" := by
    rw [← hs']
  have hstore : s'.store
      = s.store.map (fun p => if p.id == id then applyUpdate product dto else p) := by
    rw [← hs']
  have hmiss1 : redisGet s'.cache (productCacheKey id) = none := by
    rw [hcache]
    exact redisGet_filter_none (redisGet_del_self s.cache (productCacheKey id)) _
  refine ⟨hmiss1, ?_, ?_⟩
  · intro kv hkv
    rw [hcache] at hkv
    have h2 := (List.mem_filter.mp hkv).2
    simp only [Bool.not_eq_true'] at h2
    intro hpre
    rw [show ("products_list:*".dropRight 1) = "products_list:" from rfl] at h2
    rw [h2] at hpre
    exact Bool.false_ne_true (by exact_mod_cast hpre)
  · intro hmiss2
    have hpid : (product.id == id) = true := by
      have hx := @List.find?_some _ (fun p => p.id == id) product s.store hfind
      simpa using hx
    have hsid : ((applyUpdate product dto).id == id) = true := hpid
    simp only [getProductRoute]
    rw [hmiss2]
    simp only [serviceFindOne]
    rw [hmiss1, hstore, find?_map_replace (applyUpdate product dto) hfind hsid, ← hsaved]

/-- Counterexample for C8 as stated: a `GET /products/p1` populates the
interceptor-level cache; the product's price is then updated from 100 to
50; a second `GET /products/p1` is served the PRE-update projection from
the interceptor entry, which the update never deletes. -/
theorem update_stale_cache_counterexample :
    (getProductRoute
        (updateProduct
           (getProductRoute { store := [cachedProduct], cache := [] } "p1" 0).2
           "p1" { price := some 50 }).1
        "p1" 0).1
      = some (ProductView.fromProduct cachedProduct 0) ∧
    (getProductRoute
        (updateProduct
           (getProductRoute { store := [cachedProduct], cache := [] } "p1" 0).2
           "p1" { price := some 50 }).1
        "p1" 0).1
      ≠ some (ProductView.fromProduct
          (applyUpdate cachedProduct { price := some 50 }) 0) := by
  constructor
  · decide
  · decide

/-- Witness for C8 (amended): updating `cachedProduct`'s price against an
empty cache leaves the service key absent and a fresh read returns the
updated projection. -/
theorem update_invalidation_scope_witness :
    redisGet (updateProduct { store := [cachedProduct], cache := [] } "p1"
        { price := some 50 }).1.cache (productCacheKey "p1") = none ∧
    (getProductRoute (updateProduct { store := [cachedProduct], cache := [] } "p1"
        { price := some 50 }).1 "p1" 0).1
      = some (ProductView.fromProduct (applyUpdate cachedProduct { price := some 50 }) 0) := by
  have h := update_invalidation_scope { store := [cachedProduct], cache := [] } "p1"
    { price := some 50 } 0
    (updateProduct { store := [cachedProduct], cache := [] } "p1" { price := some 50 }).1
    (applyUpdate cachedProduct { price := some 50 })
    rfl
  exact ⟨h.1, h.2.2 (by decide)⟩

end Stackron
